import Mathlib

/-!
# `what-is-this`: the four `this`-binding scenarios of `src/index.js`

A shallow embedding of `src/index.js` as explicit state passing over a heap of
ECMAScript objects.  Each function of the module is a Lean function taking the
`this` value it is run with; the rules that pick that value (arrow functions,
sloppy-mode functions, class methods, bound functions, `new`) follow the language
semantics the module is written in.

Conventions of the model:

* a property is a data property (the module defines no accessor);
* `Object.prototype` and `Function.prototype` are not allocated: they define none of
  the property names the module reads or writes, so a lookup that would reach them
  answers `undefined` here as it does there;
* the host's global object is a parameter: its visible properties are the list `g`;
* a Number is represented by its numeric value, for integer-valued Numbers, the two
  infinities and NaN (`-0` and `0` are one value, as they are for `===`); an integer
  written as a numeric literal evaluates to the Number nearest to it.
-/

namespace WhatIsThis

set_option exponentiation.threshold 2000

/-! ## Values -/

/-- Numeric value of an integer-valued Number, an infinity, or NaN. -/
inductive Num where
  | fin (n : Int)
  | inf (negative : Bool)
  | nan
  deriving DecidableEq, Repr

/-- Heap address of an object. -/
abbrev Ref := Nat

/-- The language values the module manipulates. -/
inductive Val where
  | undefined
  | str (s : String)
  | num (x : Num)
  | ref (r : Ref)
  deriving DecidableEq, Repr

/-- Abrupt completions.  All but `unsupported` are `TypeError`s; `unsupported` marks
an operation outside the modelled fragment (coercing a string or object to a number,
reading a property of a primitive). -/
inductive Err where
  /-- TypeError: Cannot read properties of undefined (reading `key`). -/
  | cannotRead (key : String)
  /-- TypeError: Cannot set properties of undefined (setting `key`). -/
  | cannotSet (key : String)
  /-- TypeError: the callee is not a function. -/
  | notCallable
  /-- TypeError: the operand of `new` is not a constructor. -/
  | notConstructor
  /-- TypeError: Class constructor cannot be invoked without `new`. -/
  | classWithoutNew
  | unsupported
  deriving DecidableEq, Repr

/-- Result of evaluating an expression. -/
abbrev Outcome := Except Err Val

/-- The function bodies of `src/index.js`. -/
inductive Code where
  /-- Line 5: `() => { return this.message; }`. -/
  | getMessage
  /-- Line 16: `function Pet(name) { this.name = name; }`. -/
  | Pet
  /-- Line 20: `function () { return this.name; }`. -/
  | getName
  /-- Line 41: `function logMessage() { return this.message; }`. -/
  | logMessage
  /-- Line 52: `constructor(width, height) { ... }` of `class Rectangle`. -/
  | Rectangle
  /-- Line 58: `getArea() { return this.width * this.height; }`. -/
  | getArea
  deriving DecidableEq, Repr

/-- How a function object obtains its `this`. -/
inductive FnKind where
  /-- Arrow function: `this` is the one of the scope that created it. -/
  | arrow (lexicalThis : Val)
  /-- Function declaration or expression of a script without `"use strict"`. -/
  | sloppyFunction
  /-- Method of a class body (class bodies are strict code). -/
  | classMethod
  /-- Constructor of a class. -/
  | classConstructor
  deriving DecidableEq, Repr

/-- The callable part of a function object.  `boundThis` is set by `bind`. -/
structure Callable where
  code : Code
  kind : FnKind
  boundThis : Option Val
  deriving DecidableEq, Repr

/-- Own properties, in creation order. -/
abbrev Props := List (String × Val)

/-- A heap object: own properties, prototype link, and the callable for functions. -/
structure Obj where
  props : Props
  proto : Option Ref
  call : Option Callable
  deriving DecidableEq, Repr

/-- The heap; `Ref` is an index into it. -/
abbrev Heap := List Obj

/-- Address of the global object. -/
def globalRef : Ref := 0

/-- Address of the object that is `this` at module level (the initial `exports`). -/
def moduleThisRef : Ref := 1

/-! ## Object operations -/

/-- Own data property `key` of a property list. -/
def Props.find : Props → String → Option Val
  | [], _ => none
  | (k, v) :: ps, key => if k = key then some v else Props.find ps key

/-- Create or overwrite the own property `key`. -/
def Props.set : Props → String → Val → Props
  | [], key, v => [(key, v)]
  | (k, w) :: ps, key, v => if k = key then (k, v) :: ps else (k, w) :: Props.set ps key v

/-- Allocate a fresh object. -/
def alloc (h : Heap) (o : Obj) : Ref × Heap := (h.length, h ++ [o])

/-- Define own property `key` on the object at `r`; a dangling `r` leaves the heap as
it is. -/
def defineOwn : Heap → Ref → String → Val → Heap
  | [], _, _, _ => []
  | o :: os, 0, key, v => { o with props := o.props.set key v } :: os
  | o :: os, r + 1, key, v => o :: defineOwn os r key v

/-- Property lookup along the prototype chain starting at `r`; the chain is followed
for at most `fuel` links. -/
def lookupFrom (h : Heap) (key : String) : Nat → Ref → Val
  | 0, _ => .undefined
  | fuel + 1, r =>
    match h.get? r with
    | none => .undefined
    | some o =>
      match o.props.find key with
      | some v => v
      | none =>
        match o.proto with
        | some p => lookupFrom h key fuel p
        | none => .undefined

/-- Evaluation of `v.key`. -/
def getV (h : Heap) (v : Val) (key : String) : Outcome :=
  match v with
  | .undefined => .error (.cannotRead key)
  | .ref r => .ok (lookupFrom h key h.length r)
  | .str _ => .error .unsupported
  | .num _ => .error .unsupported

/-- Evaluation of `v.key = x`. -/
def setV (h : Heap) (v : Val) (key : String) (x : Val) : Except Err Heap :=
  match v with
  | .undefined => .error (.cannotSet key)
  | .ref r => .ok (defineOwn h r key x)
  | .str _ => .error .unsupported
  | .num _ => .error .unsupported

/-! ## Numbers -/

/-- Number of binary digits of `n`, computed with at most `fuel` halvings. -/
def bitLength : Nat → Nat → Nat
  | 0, _ => 0
  | fuel + 1, n => if n = 0 then 0 else bitLength fuel (n / 2) + 1

/-- The Number nearest to the integer `x` (53-bit significand, ties to even,
overflow to an infinity). -/
def roundDouble (x : Int) : Num :=
  let a := x.natAbs
  if a ≤ 2 ^ 53 then .fin x
  else
    let shift := bitLength a a - 53
    let q := a / 2 ^ shift
    let r := a % 2 ^ shift
    let half := 2 ^ (shift - 1)
    let q1 := if half < r ∨ (r = half ∧ q % 2 = 1) then q + 1 else q
    let m := q1 * 2 ^ shift
    if 2 ^ 1024 ≤ m then .inf (decide (x < 0))
    else .fin (if x < 0 then -(m : Int) else (m : Int))

/-- The `*` of two Numbers. -/
def Num.mul : Num → Num → Num
  | .nan, _ => .nan
  | _, .nan => .nan
  | .inf a, .inf b => .inf (a != b)
  | .inf a, .fin n => if n = 0 then .nan else .inf (a != decide (n < 0))
  | .fin n, .inf a => if n = 0 then .nan else .inf (a != decide (n < 0))
  | .fin a, .fin b => roundDouble (a * b)

/-- The abstract operation ToNumber, on the operands the model covers. -/
def toNumber : Val → Except Err Num
  | .undefined => .ok .nan
  | .num x => .ok x
  | .str _ => .error .unsupported
  | .ref _ => .error .unsupported

/-- Evaluation of `a * b`. -/
def mulVal (a b : Val) : Outcome :=
  match toNumber a with
  | .error e => .error e
  | .ok x =>
    match toNumber b with
    | .error e => .error e
    | .ok y => .ok (.num (x.mul y))

/-- Evaluation of the numeric literal that writes the integer `x`: the Number nearest
to `x`, which is `x` itself exactly when `x` is representable. -/
def numericLiteral (x : Int) : Val :=
  .num (roundDouble x)

/-! ## The function bodies of the module -/

/-- Line 5-7: `() => { return this.message; }`. -/
def getMessage (this : Val) (h : Heap) : Outcome × Heap :=
  (getV h this "message", h)

/-- Line 16-18: `function Pet(name) { this.name = name; }`. -/
def Pet (this : Val) (name : Val) (h : Heap) : Outcome × Heap :=
  match setV h this "name" name with
  | .error e => (.error e, h)
  | .ok h1 => (.ok .undefined, h1)

/-- Line 20-22: `function () { return this.name; }`. -/
def getName (this : Val) (h : Heap) : Outcome × Heap :=
  (getV h this "name", h)

/-- Line 41-43: `function logMessage() { return this.message; }`. -/
def logMessage (this : Val) (h : Heap) : Outcome × Heap :=
  (getV h this "message", h)

/-- Line 52-55: `constructor(width, height) { this.width = width; this.height = height; }`. -/
def Rectangle (this : Val) (width height : Val) (h : Heap) : Outcome × Heap :=
  match setV h this "width" width with
  | .error e => (.error e, h)
  | .ok h1 =>
    match setV h1 this "height" height with
    | .error e => (.error e, h1)
    | .ok h2 => (.ok .undefined, h2)

/-- Line 58-60: `getArea() { return this.width * this.height; }`. -/
def getArea (this : Val) (h : Heap) : Outcome × Heap :=
  match getV h this "width" with
  | .error e => (.error e, h)
  | .ok a =>
    match getV h this "height" with
    | .error e => (.error e, h)
    | .ok b => (mulVal a b, h)

/-- Argument `i` of a call; a missing argument is `undefined`. -/
def arg (args : List Val) (i : Nat) : Val := (args.get? i).getD .undefined

/-- Run a function body with a resolved `this`. -/
def runCode : Code → Val → List Val → Heap → Outcome × Heap
  | .getMessage, this, _, h => getMessage this h
  | .Pet, this, args, h => Pet this (arg args 0) h
  | .getName, this, _, h => getName this h
  | .logMessage, this, _, h => logMessage this h
  | .Rectangle, this, args, h => Rectangle this (arg args 0) (arg args 1) h
  | .getArea, this, _, h => getArea this h

/-! ## Calls -/

/-- The `this` a callable runs with when called with `thisArg`.  An arrow function
ignores it; a bound function uses its bound value; sloppy code replaces `undefined` by
the global object; strict code takes the value as it is.  (Sloppy code would box a
primitive `this`; reading a property of a primitive is outside the model, see `getV`.) -/
def thisBinding (c : Callable) (thisArg : Val) : Val :=
  match c.kind with
  | .arrow t => t
  | .sloppyFunction =>
    match c.boundThis.getD thisArg with
    | .undefined => .ref globalRef
    | v => v
  | .classMethod => c.boundThis.getD thisArg
  | .classConstructor => c.boundThis.getD thisArg

/-- The callable stored in a value, if it is a function object. -/
def callableOf (h : Heap) (f : Val) : Option Callable :=
  match f with
  | .ref r =>
    match h.get? r with
    | some o => o.call
    | none => none
  | _ => none

/-- Evaluation of a call of `f` with receiver `thisArg`. -/
def callFn (h : Heap) (f : Val) (thisArg : Val) (args : List Val) : Outcome × Heap :=
  match callableOf h f with
  | none => (.error .notCallable, h)
  | some c =>
    match c.kind with
    | .classConstructor => (.error .classWithoutNew, h)
    | _ => runCode c.code (thisBinding c thisArg) args h

/-- Evaluation of `f()`: a call without receiver. -/
def callPlain (h : Heap) (f : Val) : Outcome × Heap :=
  callFn h f .undefined []

/-- Evaluation of `o.key()`: the receiver is `o`. -/
def callMethod (h : Heap) (o : Val) (key : String) : Outcome × Heap :=
  match getV h o key with
  | .error e => (.error e, h)
  | .ok f => callFn h f o []

/-- Evaluation of `f.bind(thisArg)`: a new function object whose `this` is fixed.
Binding an already bound function keeps the first binding.  The own properties
`name` and `length` of the bound function object are not modelled. -/
def bindFunction (h : Heap) (f : Val) (thisArg : Val) : Except Err (Val × Heap) :=
  match callableOf h f with
  | none => .error .notCallable
  | some c =>
    let c1 : Callable :=
      { c with boundThis := some (c.boundThis.getD thisArg) }
    let (r, h1) := alloc h { props := [], proto := none, call := some c1 }
    .ok (.ref r, h1)

/-- Evaluation of `new f(args)`. -/
def construct (h : Heap) (f : Val) (args : List Val) : Except Err (Val × Heap) :=
  match callableOf h f with
  | none => .error .notConstructor
  | some c =>
    match c.kind with
    | .arrow _ => .error .notConstructor
    | .classMethod => .error .notConstructor
    | _ =>
      match getV h f "prototype" with
      | .error e => .error e
      | .ok p =>
        let proto : Option Ref :=
          match p with
          | .ref r => some r
          | _ => none
        let (r, h1) := alloc h { props := [], proto := proto, call := none }
        match runCode c.code (.ref r) args h1 with
        | (.error e, _) => .error e
        | (.ok (.ref r2), h2) => .ok (.ref r2, h2)
        | (.ok _, h2) => .ok (.ref r, h2)

/-! ## Module evaluation -/

/-- The literals of `src/index.js` the properties quantify over. -/
structure Literals where
  /-- Line 3: `message` of `object`. -/
  message : String
  /-- Line 24: argument of `new Pet`. -/
  petName : String
  /-- Line 38: `message` of `object2`. -/
  message2 : String
  /-- Line 63: the integer written as first argument of `new Rectangle`. -/
  width : Int
  /-- Line 63: the integer written as second argument of `new Rectangle`. -/
  height : Int
  deriving DecidableEq, Repr

/-- The literals as written in `src/index.js`. -/
def sourceLiterals : Literals :=
  { message := "Hello, World!", petName := "Fluffy", message2 := "Hello, World!",
    width := 10, height := 20 }

/-- The top-level bindings of the module after evaluation, with the final heap and the
value assigned to `module.exports`. -/
structure Module where
  heap : Heap
  object : Val
  Pet : Val
  cat : Val
  getName : Val
  petResult : Val
  object2 : Val
  logMessage : Val
  object2Result : Val
  Rectangle : Val
  reactangle : Val
  areaFunc : Val
  exports : Val
  deriving DecidableEq, Repr

/-- Own properties `length` and `name` every function object is created with. -/
def fnProps (name : String) (len : Int) : Props :=
  [("length", .num (.fin len)), ("name", .str name)]

/-- Create the function object of a `function` declaration or expression, together with
its fresh `prototype` object. -/
def makeFunction (h : Heap) (code : Code) (name : String) (len : Int) : Ref × Heap :=
  let (f, h1) := alloc h
    { props := fnProps name len, proto := none,
      call := some { code := code, kind := .sloppyFunction, boundThis := none } }
  let (p, h2) := alloc h1 { props := [("constructor", .ref f)], proto := none, call := none }
  (f, defineOwn h2 f "prototype" (.ref p))

/-- The heap before the module body runs: the global object with the host's properties
`g`, and the empty object that is both the initial `exports` and the module-level `this`. -/
def initialHeap (g : Props) : Heap :=
  [{ props := g, proto := none, call := none }, { props := [], proto := none, call := none }]

/-- Evaluation of `src/index.js`, top to bottom, on a host whose global object has the
properties `g`. -/
def evalModule (g : Props) (l : Literals) : Except Err Module := do
  let h := initialHeap g
  let this := Val.ref moduleThisRef
  -- hoisted declarations: `function Pet`, `function logMessage`
  let (petF, h) := makeFunction h .Pet "Pet" 1
  let (logF, h) := makeFunction h .logMessage "logMessage" 0
  -- Q-1, lines 2-8
  let (object, h) := alloc h { props := [], proto := none, call := none }
  let h := defineOwn h object "message" (.str l.message)
  let (arrowF, h) := alloc h
    { props := fnProps "getMessage" 0, proto := none,
      call := some { code := .getMessage, kind := .arrow this, boundThis := none } }
  let h := defineOwn h object "getMessage" (.ref arrowF)
  -- Q-2, lines 20-30
  let petProto ← getV h (.ref petF) "prototype"
  let (getNameF, h) := makeFunction h .getName "" 0
  let h ← setV h petProto "getName" (.ref getNameF)
  let (cat, h) ← construct h (.ref petF) [.str l.petName]
  let getName ← getV h cat "getName"
  let (r, h) := callPlain h getName
  let petResult ← r
  -- Q-3, lines 37-46
  let (object2, h) := alloc h { props := [], proto := none, call := none }
  let h := defineOwn h object2 "message" (.str l.message2)
  let object2Result := Val.ref logF
  -- Q-4, lines 51-66
  let (rectProto, h) := alloc h { props := [], proto := none, call := none }
  let (rectF, h) := alloc h
    { props := fnProps "Rectangle" 2 ++ [("prototype", .ref rectProto)], proto := none,
      call := some { code := .Rectangle, kind := .classConstructor, boundThis := none } }
  let h := defineOwn h rectProto "constructor" (.ref rectF)
  let (getAreaF, h) := alloc h
    { props := fnProps "getArea" 0, proto := none,
      call := some { code := .getArea, kind := .classMethod, boundThis := none } }
  let h := defineOwn h rectProto "getArea" (.ref getAreaF)
  let (reactangle, h) ← construct h (.ref rectF)
    [numericLiteral l.width, numericLiteral l.height]
  let areaFunc ← getV h reactangle "getArea"
  -- lines 69-74
  let (exports, h) := alloc h
    { props := [("object", .ref object), ("petResult", petResult),
                ("object2Result", object2Result), ("areaFunc", areaFunc)],
      proto := none, call := none }
  return { heap := h, object := .ref object, Pet := .ref petF, cat := cat,
           getName := getName, petResult := petResult, object2 := .ref object2,
           logMessage := .ref logF, object2Result := object2Result,
           Rectangle := .ref rectF, reactangle := reactangle, areaFunc := areaFunc,
           exports := .ref exports }

/-! ## The observations of `src/index.test.js` -/

/-- Property `key` of the exported mapping, as `require("./index.js")` destructures it
(test file, lines 1-6). -/
def exported (m : Module) (key : String) : Outcome :=
  getV m.heap m.exports key

/-- Own property names of the object `v`, in creation order. -/
def ownKeys (h : Heap) (v : Val) : List String :=
  match v with
  | .ref r =>
    match h.get? r with
    | some o => o.props.map Prod.fst
    | none => []
  | _ => []

/-- Test line 9: `object.getMessage()`, run in heap `h`. -/
def testGetMessage (m : Module) (h : Heap) : Outcome × Heap :=
  match getV h m.exports "object" with
  | .error e => (.error e, h)
  | .ok o => callMethod h o "getMessage"

/-- Test line 13: `petResult`. -/
def testPetResult (m : Module) : Outcome :=
  exported m "petResult"

/-- Test line 17: `object2Result()`, run in heap `h`. -/
def testObject2Result (m : Module) (h : Heap) : Outcome × Heap :=
  match getV h m.exports "object2Result" with
  | .error e => (.error e, h)
  | .ok f => callPlain h f

/-- Test line 21: `areaFunc()`, run in heap `h`. -/
def testAreaFunc (m : Module) (h : Heap) : Outcome × Heap :=
  match getV h m.exports "areaFunc" with
  | .error e => (.error e, h)
  | .ok f => callPlain h f

/-- The callables reachable through the exported mapping. -/
inductive Export where
  /-- The member `getMessage` of the export `object`. -/
  | getMessage
  | object2Result
  | areaFunc
  deriving DecidableEq, Repr

/-- One invocation of an exported callable, written as the test file writes it, in
heap `h`. -/
def invoke (m : Module) (e : Export) (h : Heap) : Outcome × Heap :=
  match e with
  | .getMessage => testGetMessage m h
  | .object2Result => testObject2Result m h
  | .areaFunc => testAreaFunc m h

/-- The heap after the invocations `es`, run in order from heap `h`. -/
def heapAfter (m : Module) : List Export → Heap → Heap
  | [], h => h
  | e :: es, h => heapAfter m es (invoke m e h).2

/-- Whether a value is a String. -/
def Val.isString : Val → Bool
  | .str _ => true
  | _ => false

/-- Whether a value is a Number. -/
def Val.isNumber : Val → Bool
  | .num _ => true
  | _ => false

/-- Whether a value is a function object. -/
def isCallable (h : Heap) (v : Val) : Bool :=
  (callableOf h v).isSome

/-! ## The state module evaluation ends in -/

/-- Value of `globalThis.key` on a host whose global object has the properties `g`. -/
def globalGet (g : Props) (key : String) : Val :=
  match g.find key with
  | some v => v
  | none => .undefined

/-- The heap `evalModule` ends in, object by object, in allocation order. -/
def finalHeap (g : Props) (l : Literals) : Heap :=
  [ -- 0: the global object
    { props := g, proto := none, call := none },
    -- 1: the initial `exports`, the module-level `this`
    { props := [], proto := none, call := none },
    -- 2, 3: `Pet` and `Pet.prototype`
    { props := [("length", .num (.fin 1)), ("name", .str "Pet"), ("prototype", .ref 3)],
      proto := none,
      call := some { code := .Pet, kind := .sloppyFunction, boundThis := none } },
    { props := [("constructor", .ref 2), ("getName", .ref 8)], proto := none, call := none },
    -- 4, 5: `logMessage` and `logMessage.prototype`
    { props := [("length", .num (.fin 0)), ("name", .str "logMessage"), ("prototype", .ref 5)],
      proto := none,
      call := some { code := .logMessage, kind := .sloppyFunction, boundThis := none } },
    { props := [("constructor", .ref 4)], proto := none, call := none },
    -- 6, 7: `object` and its arrow function
    { props := [("message", .str l.message), ("getMessage", .ref 7)], proto := none,
      call := none },
    { props := [("length", .num (.fin 0)), ("name", .str "getMessage")], proto := none,
      call := some { code := .getMessage, kind := .arrow (.ref 1), boundThis := none } },
    -- 8, 9: the function assigned to `Pet.prototype.getName`, and its `prototype`
    { props := [("length", .num (.fin 0)), ("name", .str ""), ("prototype", .ref 9)],
      proto := none,
      call := some { code := .getName, kind := .sloppyFunction, boundThis := none } },
    { props := [("constructor", .ref 8)], proto := none, call := none },
    -- 10: `cat`
    { props := [("name", .str l.petName)], proto := some 3, call := none },
    -- 11: `object2`
    { props := [("message", .str l.message2)], proto := none, call := none },
    -- 12, 13, 14: `Rectangle.prototype`, `Rectangle`, `getArea`
    { props := [("constructor", .ref 13), ("getArea", .ref 14)], proto := none, call := none },
    { props := [("length", .num (.fin 2)), ("name", .str "Rectangle"), ("prototype", .ref 12)],
      proto := none,
      call := some { code := .Rectangle, kind := .classConstructor, boundThis := none } },
    { props := [("length", .num (.fin 0)), ("name", .str "getArea")], proto := none,
      call := some { code := .getArea, kind := .classMethod, boundThis := none } },
    -- 15: `reactangle`
    { props := [("width", numericLiteral l.width), ("height", numericLiteral l.height)],
      proto := some 12, call := none },
    -- 16: the object assigned to `module.exports`
    { props := [("object", .ref 6), ("petResult", globalGet g "name"),
                ("object2Result", .ref 4), ("areaFunc", .ref 14)],
      proto := none, call := none } ]

/-- The bindings `evalModule` ends with. -/
def finalModule (g : Props) (l : Literals) : Module :=
  { heap := finalHeap g l, object := .ref 6, Pet := .ref 2, cat := .ref 10,
    getName := .ref 8, petResult := globalGet g "name", object2 := .ref 11,
    logMessage := .ref 4, object2Result := .ref 4, Rectangle := .ref 13,
    reactangle := .ref 15, areaFunc := .ref 14, exports := .ref 16 }

/-! ## Evaluation lemmas -/

set_option maxHeartbeats 4000000 in
/-- Module evaluation completes, on every host and for every choice of literals, in
the state `finalModule`. -/
theorem evalModule_eq (g : Props) (l : Literals) :
    evalModule g l = .ok (finalModule g l) := by
  simp [evalModule, makeFunction, initialHeap, alloc, defineOwn, getV, setV, lookupFrom,
    Props.find, Props.set, fnProps, construct, callableOf, runCode, Pet, Rectangle, arg,
    callPlain, callFn, thisBinding, getName, globalRef, moduleThisRef, Bind.bind, pure,
    Except.pure, Except.bind, finalModule, finalHeap, globalGet]

/-- Invoking an exported callable in the final heap returns that heap. -/
theorem invoke_finalHeap (g : Props) (l : Literals) (e : Export) :
    (invoke (finalModule g l) e (finalHeap g l)).2 = finalHeap g l := by
  cases e <;> rfl

/-- No sequence of invocations moves the heap away from the final heap. -/
theorem heapAfter_finalHeap (g : Props) (l : Literals) (es : List Export) :
    heapAfter (finalModule g l) es (finalHeap g l) = finalHeap g l := by
  induction es with
  | nil => rfl
  | cons e es ih =>
    show heapAfter (finalModule g l) es (invoke (finalModule g l) e (finalHeap g l)).2 = _
    rw [invoke_finalHeap, ih]

/-- An integer of magnitude at most `2 ^ 53` is a Number: rounding leaves it alone. -/
theorem roundDouble_of_le (x : Int) (hx : x.natAbs ≤ 2 ^ 53) : roundDouble x = .fin x := by
  unfold roundDouble
  simp only [hx, if_true]

/-- A global object without the property `key` answers `undefined` for it. -/
theorem globalGet_of_find_none (g : Props) (key : String) (hg : g.find key = none) :
    globalGet g key = .undefined := by
  unfold globalGet
  rw [hg]

/-- The value `undefined` is no string result. -/
theorem ok_undefined_ne_str (t : String) :
    (Except.ok Val.undefined : Outcome) ≠ .ok (.str t) := by
  intro h
  cases h

/-- The detached `getName()` of line 30 reads the global object. -/
theorem callPlain_getName_final (g : Props) (l : Literals) :
    callPlain (finalHeap g l) (.ref 8) = (.ok (globalGet g "name"), finalHeap g l) := by
  cases hg : g.find "name" <;> simp [callPlain, callFn, callableOf, finalHeap, runCode,
    thisBinding, getName, getV, lookupFrom, globalRef, globalGet, hg]

/-- The receiver-less `logMessage()` reads the global object. -/
theorem callPlain_logMessage_final (g : Props) (l : Literals) :
    callPlain (finalHeap g l) (.ref 4) = (.ok (globalGet g "message"), finalHeap g l) := by
  cases hg : g.find "message" <;> simp [callPlain, callFn, callableOf, finalHeap, runCode,
    thisBinding, logMessage, getV, lookupFrom, globalRef, globalGet, hg]

/-! ## Q-1: `object.getMessage()` -/

/-- C1, the code as written: for every message `m` the record `object` is built
with, and on every host, `object.getMessage()` returns `undefined`, not `m`: the arrow
function reads `message` from the module-level `this`, the empty initial `exports`. -/
theorem object_getMessage_returns_undefined (g : Props) (l : Literals) :
    ∃ m, evalModule g l = .ok m ∧
      callMethod m.heap m.object "getMessage" = (.ok .undefined, m.heap) ∧
      testGetMessage m m.heap = (.ok .undefined, m.heap) ∧
      (testGetMessage m m.heap).1 ≠ .ok (.str l.message) :=
  ⟨_, evalModule_eq g l, rfl, rfl, ok_undefined_ne_str l.message⟩

/-! ## Q-2: the detached `getName` -/

/-- C2, the code as written: `petResult` is the global object's `name` property
whatever name the pet was given; on a host whose global object has no `name`, the
exported `petResult` of the module as written is `undefined`, not `"Fluffy"`. -/
theorem petResult_is_global_name :
    (∀ (g : Props) (l : Literals), ∃ m, evalModule g l = .ok m ∧
      m.petResult = globalGet g "name" ∧ testPetResult m = .ok (globalGet g "name")) ∧
    (∃ m, evalModule [] sourceLiterals = .ok m ∧ testPetResult m = .ok .undefined ∧
      testPetResult m ≠ .ok (.str "Fluffy")) :=
  ⟨fun g l => ⟨_, evalModule_eq g l, rfl, rfl⟩,
   ⟨_, evalModule_eq [] sourceLiterals, rfl, ok_undefined_ne_str "Fluffy"⟩⟩

/-- C5, the code as written: the detached call `getName()` returns the global
object's `name`, the attached call `cat.getName()` returns the pet's name; for the
module as written on a host without a global `name` the two results differ. -/
theorem detached_getName_differs_from_attached :
    (∀ (g : Props) (l : Literals), ∃ m, evalModule g l = .ok m ∧
      callPlain m.heap m.getName = (.ok (globalGet g "name"), m.heap) ∧
      callMethod m.heap m.cat "getName" = (.ok (.str l.petName), m.heap)) ∧
    (∃ m, evalModule [] sourceLiterals = .ok m ∧
      (callPlain m.heap m.getName).1 = .ok .undefined ∧
      (callMethod m.heap m.cat "getName").1 = .ok (.str "Fluffy") ∧
      (callPlain m.heap m.getName).1 ≠ (callMethod m.heap m.cat "getName").1) :=
  ⟨fun g l => ⟨_, evalModule_eq g l, callPlain_getName_final g l, rfl⟩,
   ⟨_, evalModule_eq [] sourceLiterals, rfl, rfl, ok_undefined_ne_str "Fluffy"⟩⟩

/-! ## Q-3: the unbound `logMessage` -/

/-- C3, the code as written: `object2Result()` returns the global object's
`message` property whatever `object2.message` is; for the module as written on a host
without a global `message` it returns `undefined`, not `"Hello, World!"`. -/
theorem object2Result_reads_global_message :
    (∀ (g : Props) (l : Literals), ∃ m, evalModule g l = .ok m ∧
      testObject2Result m m.heap = (.ok (globalGet g "message"), m.heap)) ∧
    (∃ m, evalModule [] sourceLiterals = .ok m ∧
      (testObject2Result m m.heap).1 = .ok .undefined ∧
      (testObject2Result m m.heap).1 ≠ .ok (.str "Hello, World!")) :=
  ⟨fun g l => ⟨_, evalModule_eq g l, callPlain_logMessage_final g l⟩,
   ⟨_, evalModule_eq [] sourceLiterals, rfl, ok_undefined_ne_str "Hello, World!"⟩⟩

/-! ## Q-4: the extracted `getArea` -/

/-- C4, the code as written: for every width and height, on every host,
`areaFunc()` raises the TypeError "cannot read properties of undefined (reading
width)" and returns no number; so it does for width 10 and height 20. -/
theorem areaFunc_raises_typeError (g : Props) (l : Literals) :
    ∃ m, evalModule g l = .ok m ∧
      testAreaFunc m m.heap = (.error (.cannotRead "width"), m.heap) ∧
      callPlain m.heap m.areaFunc = (.error (.cannotRead "width"), m.heap) :=
  ⟨_, evalModule_eq g l, rfl, rfl⟩

/-- On the instance, `getArea` multiplies the two fields as Numbers and returns the
heap it was given. -/
theorem callMethod_getArea_final (g : Props) (l : Literals) :
    callMethod (finalHeap g l) (.ref 15) "getArea"
      = (.ok (.num ((roundDouble l.width).mul (roundDouble l.height))), finalHeap g l) :=
  rfl

/-- The product of two representable integers is their exact product whenever that
product is representable. -/
theorem mul_roundDouble_exact (w h : Int) (hw : roundDouble w = .fin w)
    (hh : roundDouble h = .fin h) (hp : roundDouble (w * h) = .fin (w * h)) :
    (roundDouble w).mul (roundDouble h) = .fin (w * h) := by
  rw [hw, hh]
  exact hp

/-- C9, counterexample to exactness: for width = height = 94906267 the call
`reactangle.getArea()` returns 9007199515875288, which is not the integer product
9007199515875289: the product exceeds `2 ^ 53` and is rounded to the nearest Number. -/
theorem getArea_inexact_counterexample :
    ∃ m, evalModule [] { sourceLiterals with width := 94906267, height := 94906267 } = .ok m ∧
      (callMethod m.heap m.reactangle "getArea").1 = .ok (.num (.fin 9007199515875288)) ∧
      (callMethod m.heap m.reactangle "getArea").1
        ≠ .ok (.num (.fin (94906267 * 94906267))) := by
  refine ⟨_, evalModule_eq _ _, rfl, ?_⟩
  intro h
  have h2 : (Except.ok (Val.num (Num.fin 9007199515875288)) : Outcome)
      = .ok (.num (.fin (94906267 * 94906267))) := h
  simp at h2

/-- C9, amended: for all integers `w`, `h` that are exactly representable as
Numbers and whose product `w * h` is exactly representable as a Number, `getArea` run
with the instance `new Rectangle(w, h)` as its context, either as
`reactangle.getArea()` or through a reference bound to the instance and called with
any receiver, returns exactly `w * h`, and leaves the heap, hence `width` and
`height`, unchanged. -/
theorem getArea_on_instance_exact (g : Props) (l : Literals)
    (hw : roundDouble l.width = .fin l.width)
    (hh : roundDouble l.height = .fin l.height)
    (hp : roundDouble (l.width * l.height) = .fin (l.width * l.height)) :
    ∃ m, evalModule g l = .ok m ∧
      callMethod m.heap m.reactangle "getArea"
        = (.ok (.num (.fin (l.width * l.height))), m.heap) ∧
      (∃ f h1, bindFunction m.heap m.areaFunc m.reactangle = .ok (f, h1) ∧
        ∀ thisArg, callFn h1 f thisArg [] = (.ok (.num (.fin (l.width * l.height))), h1) ∧
          getV h1 m.reactangle "width" = .ok (.num (.fin l.width)) ∧
          getV h1 m.reactangle "height" = .ok (.num (.fin l.height))) ∧
      getV m.heap m.reactangle "width" = .ok (.num (.fin l.width)) ∧
      getV m.heap m.reactangle "height" = .ok (.num (.fin l.height)) := by
  have key := mul_roundDouble_exact l.width l.height hw hh hp
  refine ⟨_, evalModule_eq g l, ?_, ⟨_, _, rfl, fun thisArg => ⟨?_, ?_, ?_⟩⟩, ?_, ?_⟩
  · rw [← key]
    rfl
  · rw [← key]
    rfl
  · rw [← hw]
    rfl
  · rw [← hh]
    rfl
  · rw [← hw]
    rfl
  · rw [← hh]
    rfl

/-- C9, witness: 10, 20 and 200 are representable, and `getArea` on the instance of
the module as written returns 200; `2 ^ 30` and the product `2 ^ 60` are representable
too, and there `getArea` returns `2 ^ 60`. -/
theorem getArea_on_instance_exact_witness :
    (roundDouble 10 = .fin 10 ∧ roundDouble 20 = .fin 20 ∧
      roundDouble (10 * 20) = .fin (10 * 20) ∧
      ∃ m, evalModule [] sourceLiterals = .ok m ∧
        callMethod m.heap m.reactangle "getArea" = (.ok (.num (.fin 200)), m.heap)) ∧
    (roundDouble (2 ^ 30) = .fin (2 ^ 30) ∧
      roundDouble (2 ^ 30 * 2 ^ 30) = .fin (2 ^ 30 * 2 ^ 30) ∧
      ∃ m, evalModule [] { sourceLiterals with width := 2 ^ 30, height := 2 ^ 30 } = .ok m ∧
        callMethod m.heap m.reactangle "getArea"
          = (.ok (.num (.fin (2 ^ 30 * 2 ^ 30))), m.heap)) := by
  obtain ⟨m, hm, hcall, _⟩ := getArea_on_instance_exact [] sourceLiterals rfl rfl rfl
  obtain ⟨m2, hm2, hcall2, _⟩ := getArea_on_instance_exact []
    { sourceLiterals with width := 2 ^ 30, height := 2 ^ 30 } rfl rfl rfl
  exact ⟨⟨rfl, rfl, rfl, m, hm, hcall⟩, ⟨rfl, rfl, m2, hm2, hcall2⟩⟩

/-! ## The module as a whole -/

/-- In the final heap an invocation does not depend on what was invoked before. -/
theorem invoke_heapAfter_final (g : Props) (l : Literals) (es : List Export) (e : Export) :
    invoke (finalModule g l) e (heapAfter (finalModule g l) es (finalHeap g l))
      = invoke (finalModule g l) e (finalHeap g l) := by
  rw [heapAfter_finalHeap]

/-- C6: on every host and for all literals, after any sequence `es` of earlier
invocations of the exported callables an invocation yields the outcome (returned value
or raised error) of a first invocation, in particular the `k`-th invocation of a
callable does for every `k ≥ 1`; and the heap after `es` is the heap module
evaluation ended in, so `object.message`, `object2.message`, the rectangle's `width`
and `height` and the exported `petResult` are what they were. -/
theorem exports_idempotent (g : Props) (l : Literals) :
    ∃ m, evalModule g l = .ok m ∧
      (∀ (es : List Export) (e : Export),
        (invoke m e (heapAfter m es m.heap)).1 = (invoke m e m.heap).1) ∧
      (∀ (e : Export) (k : Nat), 1 ≤ k →
        (invoke m e (heapAfter m (List.replicate (k - 1) e) m.heap)).1
          = (invoke m e m.heap).1) ∧
      (∀ es : List Export,
        heapAfter m es m.heap = m.heap ∧
        getV (heapAfter m es m.heap) m.object "message" = .ok (.str l.message) ∧
        getV (heapAfter m es m.heap) m.object2 "message" = .ok (.str l.message2) ∧
        getV (heapAfter m es m.heap) m.reactangle "width" = .ok (numericLiteral l.width) ∧
        getV (heapAfter m es m.heap) m.reactangle "height" = .ok (numericLiteral l.height) ∧
        getV (heapAfter m es m.heap) m.exports "petResult" = .ok m.petResult) := by
  refine ⟨_, evalModule_eq g l, ?_, ?_, ?_⟩
  · intro es e
    exact congrArg Prod.fst (invoke_heapAfter_final g l es e)
  · intro e k _
    exact congrArg Prod.fst (invoke_heapAfter_final g l _ e)
  · intro es
    have hes : heapAfter (finalModule g l) es (finalModule g l).heap = finalHeap g l :=
      heapAfter_finalHeap g l es
    rw [hes]
    exact ⟨rfl, rfl, rfl, rfl, rfl, rfl⟩

/-- C6, witness: for the module as written, the third invocation of `areaFunc` has
the outcome of the first. -/
theorem exports_idempotent_witness :
    ∃ m, evalModule [] sourceLiterals = .ok m ∧ 1 ≤ 3 ∧
      (invoke m .areaFunc (heapAfter m (List.replicate (3 - 1) .areaFunc) m.heap)).1
        = (invoke m .areaFunc m.heap).1 := by
  obtain ⟨m, hm, _, hk, _⟩ := exports_idempotent [] sourceLiterals
  exact ⟨m, hm, by decide, hk .areaFunc 3 (by decide)⟩

/-- C7, the code as written, on a host whose global object has neither `name` nor
`message`: the exported mapping has exactly the keys `object`, `petResult`,
`object2Result`, `areaFunc`, and `object` exposes a callable `getMessage`; but
`petResult` is `undefined`, not a string, the call `object2Result()` returns
`undefined`, not a string, and the call `areaFunc()` raises a TypeError and returns
no number. -/
theorem exports_shape_as_written :
    ∃ m, evalModule [] sourceLiterals = .ok m ∧
      ownKeys m.heap m.exports = ["object", "petResult", "object2Result", "areaFunc"] ∧
      (∃ o f, exported m "object" = .ok o ∧ getV m.heap o "getMessage" = .ok f ∧
        isCallable m.heap f = true) ∧
      (∃ v, exported m "petResult" = .ok v ∧ v = .undefined ∧ v.isString = false) ∧
      (∃ f, exported m "object2Result" = .ok f ∧ isCallable m.heap f = true ∧
        ∃ v, (callPlain m.heap f).1 = .ok v ∧ v.isString = false) ∧
      (∃ f, exported m "areaFunc" = .ok f ∧ isCallable m.heap f = true ∧
        (callPlain m.heap f).1 = .error (.cannotRead "width")) :=
  ⟨_, evalModule_eq [] sourceLiterals, rfl, ⟨_, _, rfl, rfl, rfl⟩, ⟨_, rfl, rfl, rfl⟩,
    ⟨_, rfl, rfl, _, rfl, rfl⟩, ⟨_, rfl, rfl, rfl⟩⟩

/-- C8, counterexample: on a host whose global object has the property `name` with
the empty string as value (a browser-like window), the module as written evaluates
and the receiver-less call `getName()`, hence `petResult`, is the string `""`: a
defined value, neither `undefined` nor a raised TypeError. -/
theorem getName_defined_on_named_host_counterexample :
    ∃ m, evalModule [("name", .str "")] sourceLiterals = .ok m ∧
      (callPlain m.heap m.getName).1 = .ok (.str "") ∧
      m.petResult = .str "" ∧
      testPetResult m = .ok (.str "") ∧
      m.petResult ≠ .undefined := by
  refine ⟨_, evalModule_eq _ _, rfl, rfl, rfl, ?_⟩
  intro h
  cases h

/-- C8, amended: on every host and for all literals, module evaluation completes
and the export mapping has its four keys; the arrow function `getMessage`, which
reads the module-level `this` whatever receiver it is called with, returns
`undefined`; `areaFunc()`, called without receiver, raises the TypeError for reading
`width` of `undefined`; `getName()` (the value of `petResult`) and `object2Result()`,
called without receiver, return the global object's `name` and `message`, which is
`undefined` whenever the global object does not define that property. -/
theorem unbound_calls_undefined_or_typeError (g : Props) (l : Literals) :
    ∃ m, evalModule g l = .ok m ∧
      ownKeys m.heap m.exports = ["object", "petResult", "object2Result", "areaFunc"] ∧
      (testGetMessage m m.heap).1 = .ok .undefined ∧
      (∃ f, getV m.heap m.object "getMessage" = .ok f ∧
        ∀ thisArg, (callFn m.heap f thisArg []).1 = .ok .undefined) ∧
      (testAreaFunc m m.heap).1 = .error (.cannotRead "width") ∧
      (callPlain m.heap m.getName).1 = .ok (globalGet g "name") ∧
      m.petResult = globalGet g "name" ∧
      (testObject2Result m m.heap).1 = .ok (globalGet g "message") ∧
      (g.find "name" = none →
        (callPlain m.heap m.getName).1 = .ok .undefined ∧
        m.petResult = .undefined ∧
        testPetResult m = .ok .undefined) ∧
      (g.find "message" = none →
        (testObject2Result m m.heap).1 = .ok .undefined) := by
  have hn : (callPlain (finalHeap g l) (.ref 8)).1 = .ok (globalGet g "name") :=
    congrArg Prod.fst (callPlain_getName_final g l)
  have hm : (callPlain (finalHeap g l) (.ref 4)).1 = .ok (globalGet g "message") :=
    congrArg Prod.fst (callPlain_logMessage_final g l)
  refine ⟨_, evalModule_eq g l, rfl, rfl, ⟨_, rfl, fun _ => rfl⟩, rfl, hn, rfl, hm, ?_, ?_⟩
  · intro hname
    refine ⟨?_, globalGet_of_find_none g _ hname, ?_⟩
    · exact hn.trans (by rw [globalGet_of_find_none g _ hname])
    · show Except.ok (globalGet g "name") = _
      rw [globalGet_of_find_none g _ hname]
  · intro hmessage
    exact hm.trans (by rw [globalGet_of_find_none g _ hmessage])

/-- C8, witness: the empty global object defines neither `name` nor `message`, and
there the module as written evaluates with `petResult` undefined, `object2Result()`
returning `undefined` and `areaFunc()` raising. -/
theorem unbound_calls_undefined_or_typeError_witness :
    Props.find [] "name" = none ∧ Props.find [] "message" = none ∧
    ∃ m, evalModule [] sourceLiterals = .ok m ∧ m.petResult = .undefined ∧
      (testObject2Result m m.heap).1 = .ok .undefined ∧
      (testAreaFunc m m.heap).1 = .error (.cannotRead "width") := by
  obtain ⟨m, hm, _, _, _, harea, _, _, _, hname, hmessage⟩ :=
    unbound_calls_undefined_or_typeError [] sourceLiterals
  exact ⟨rfl, rfl, m, hm, (hname rfl).2.1, hmessage rfl, harea⟩

/-- C10: on every host and for every name `n`, `getName` run with the instance
`cat = new Pet(n)` as its context, either as `cat.getName()` or through a reference
bound to `cat` and called with any receiver, returns `n`; `getName` is not an own
property of an instance but the one function object held by `Pet.prototype`, which
every further instance `new Pet(v)` resolves `getName` to as well; for the module as
written `cat.getName()` returns `"Fluffy"`. -/
theorem getName_on_instance_shared :
    (∀ (g : Props) (l : Literals), ∃ m, evalModule g l = .ok m ∧
      callMethod m.heap m.cat "getName" = (.ok (.str l.petName), m.heap) ∧
      (∃ f h1, bindFunction m.heap m.getName m.cat = .ok (f, h1) ∧
        ∀ thisArg, callFn h1 f thisArg [] = (.ok (.str l.petName), h1)) ∧
      (∃ proto, getV m.heap m.Pet "prototype" = .ok proto ∧
        getV m.heap proto "getName" = .ok m.getName ∧
        getV m.heap m.cat "getName" = .ok m.getName ∧
        ownKeys m.heap m.cat = ["name"]) ∧
      (∀ v : Val, ∃ pet h1, construct m.heap m.Pet [v] = .ok (pet, h1) ∧
        pet ≠ m.cat ∧
        ownKeys h1 pet = ["name"] ∧
        getV h1 pet "getName" = .ok m.getName ∧
        getV h1 m.cat "getName" = .ok m.getName ∧
        callMethod h1 pet "getName" = (.ok v, h1) ∧
        callMethod h1 m.cat "getName" = (.ok (.str l.petName), h1))) ∧
    (∃ m, evalModule [] sourceLiterals = .ok m ∧
      (callMethod m.heap m.cat "getName").1 = .ok (.str "Fluffy")) := by
  refine ⟨fun g l => ⟨_, evalModule_eq g l, rfl, ⟨_, _, rfl, fun _ => rfl⟩,
    ⟨_, rfl, rfl, rfl, rfl⟩, fun v => ⟨_, _, rfl, ?_, rfl, rfl, rfl, rfl, rfl⟩⟩,
    ⟨_, evalModule_eq [] sourceLiterals, rfl⟩⟩
  intro h
  cases h

end WhatIsThis
